import Mathlib

/-!
Shallow embedding of the `current_thread` executor
(`src/executor/current_thread.rs`) of this repository, together with proofs
about its task-accounting and run-context logic.

The executor's own logic (the `spawn` function, `CurrentRunner`,
`TaskRunner::enter` / `finish` / `poll_all`, the public `CurrentThread`
entry points) is translated directly from the source.  The two external
primitives it consumes — the `scheduler` ready queue and the `ThreadNotify`
wake token, both of which live outside the translated file — are modelled
from the spec (section 6): the queue is a FIFO list drained by the owning
thread, a task whose poll returns not-ready is moved to a wake-pending set,
and every wake-pending task is re-inserted while the thread is parked (the
most favourable wake environment).  Machine behaviour that cannot occur in
a single-thread deterministic run (the `Inconsistent` tick result caused by
a concurrent push) is treated separately by an abstract tick-result stream.
-/

namespace FuturesExec

/-- Poll behaviour of one spawned computation (a boxed
`Future<Item = (), Error = ()>`).  Each poll reports the re-entrant calls it
makes into the executor (`spawns` lists the daemon flag and behaviour of
each future handed to the internal `spawn`, `cancels` is true when the poll
calls `cancel_all_spawned`) and its outcome: `done = some true` means
`Ok(Async::Ready(()))`, `done = some false` means `Err(())`, and
`done = none` means `Ok(Async::NotReady)`, in which case `next` is the
behaviour at the following poll (`none` meaning the same behaviour again,
for futures that never resolve). -/
inductive TaskBeh : Type where
  | mk (spawns : List (Bool × TaskBeh)) (cancels : Bool)
       (done : Option Bool) (next : Option TaskBeh)

/-- Poll behaviour of the root future given to `block_on_all`: like
`TaskBeh`, but resolution carries the root's own item or error
(`res = some (.ok a)` for `Ok(Async::Ready(a))`, `res = some (.error e)`
for `Err(e)`, `res = none` for not-ready, continuing as `next`). -/
inductive RootBeh (α ε : Type) : Type where
  | mk (spawns : List (Bool × TaskBeh)) (cancels : Bool)
       (res : Option (Except ε α)) (next : Option (RootBeh α ε))

/-- The `SpawnedFuture` struct: one queued task, its fixed daemon flag and
its boxed computation (`Task::new` boxes the future; the model keeps the
behaviour itself). -/
structure SpawnedFuture : Type where
  daemon : Bool
  inner : TaskBeh

/-- The kinds of `ExecuteError`; only `Shutdown` is produced by this
executor. -/
inductive ExecuteErrorKind : Type where
  | shutdown
deriving DecidableEq

/-- The `ExecuteError` returned by the internal `spawn`: the kind together
with the rejected future, handed back to the caller. -/
structure ExecuteError (F : Type) : Type where
  kind : ExecuteErrorKind
  future : F

/-- The thread-local `CurrentRunner` record (`CURRENT`): the cancellation
flag, the count of non-daemon tasks being executed, and whether the raw
scheduler pointer is currently non-null (`schedPtr = true` models a
published, valid pointer; `false` models null). -/
structure Tls : Type where
  cancel : Bool
  nonDaemons : Nat
  schedPtr : Bool
deriving DecidableEq

/-- Observation of one run: each root poll and each task poll records the
scheduler-pointer state seen while the poll executes, and each park records
the pointer state while the thread is parked. -/
inductive Ev : Type where
  | rootPollEv (ptrDuringPoll : Bool)
  | taskPollEv (ptrDuringPoll : Bool)
  | parkEv (ptrAtPark : Bool)
deriving DecidableEq

/-- State of one run context: the thread-local record, the runner's queue
of runnable tasks, the wake-pending set (tasks whose last poll was
not-ready; modelled from the spec, since the queue primitive is external),
the root future (`none` once resolved, like `finish`'s `future` local),
the stored root outcome (`finish`'s `result` local), the observation trace
and a sticky flag recording whether the `debug_assert!(non_daemons > 0)`
guarding the counter decrement ever failed. -/
structure RunState (α ε : Type) : Type where
  tls : Tls
  queue : List SpawnedFuture
  parked : List SpawnedFuture
  root : Option (RootBeh α ε)
  result : Option (Except ε α)
  trace : List Ev
  assertFailed : Bool

/-- The internal `spawn(future, daemon)` (src lines 275-299): with a null
scheduler pointer it returns the `Shutdown` error carrying the future back
and leaves everything untouched; otherwise it wraps the future in a
`SpawnedFuture`, increments `non_daemons` when the task is not a daemon,
and pushes onto the active queue. -/
def spawn (tls : Tls) (q : List SpawnedFuture) (future : TaskBeh) (daemon : Bool) :
    Except (ExecuteError TaskBeh) Unit × Tls × List SpawnedFuture :=
  if tls.schedPtr = false then
    (.error ⟨.shutdown, future⟩, tls, q)
  else
    let spawned : SpawnedFuture := ⟨daemon, future⟩
    let tls' := if daemon then tls else { tls with nonDaemons := tls.nonDaemons + 1 }
    (.ok (), tls', q ++ [spawned])

/-- The public `CurrentThread::spawn` free function: panics (modelled as
`none`) when the internal `spawn` reports `Shutdown`. -/
def spawnFree (tls : Tls) (q : List SpawnedFuture) (future : TaskBeh) :
    Option (Tls × List SpawnedFuture) :=
  match spawn tls q future false with
  | (.ok _, tls', q') => some (tls', q')
  | (.error _, _, _) => none

/-- The public `CurrentThread::spawn_daemon` free function: panics
(modelled as `none`) when the internal `spawn` reports `Shutdown`. -/
def spawnDaemonFree (tls : Tls) (q : List SpawnedFuture) (future : TaskBeh) :
    Option (Tls × List SpawnedFuture) :=
  match spawn tls q future true with
  | (.ok _, tls', q') => some (tls', q')
  | (.error _, _, _) => none

/-- The `CurrentRunner::with` helper (src lines 421-431): runs the given
update only when a scheduler is published, failing otherwise. -/
def withRunner (tls : Tls) (f : Tls → Tls) : Option Tls :=
  if tls.schedPtr = false then none else some (f tls)

/-- The `CurrentRunner::cancel_all_spawned` method (src lines 455-457):
sets the cancellation flag and nothing else. -/
def cancelAllSpawned (tls : Tls) : Tls :=
  { tls with cancel := true }

/-- The public `CurrentThread::cancel_all_spawned` free function: panics
(modelled as `none`) when no run context is active. -/
def cancelAllSpawnedFree (tls : Tls) : Option Tls :=
  withRunner tls cancelAllSpawned

/-- Applies the re-entrant spawns made during one poll, in order, each one
through the internal `spawn` (the pointer is published for the whole poll,
so each call succeeds; a failing call would leave the state unchanged,
matching the panic that could never fire there). -/
def spawnMany : Tls → List SpawnedFuture → List (Bool × TaskBeh) → Tls × List SpawnedFuture
  | tls, q, [] => (tls, q)
  | tls, q, (d, t) :: rest =>
    let r := spawn tls q t d
    spawnMany r.2.1 r.2.2 rest

/-- Applies all executor effects of one poll: the re-entrant spawns
followed by `cancel_all_spawned` when the poll requested cancellation. -/
def applyEffects (tls : Tls) (q : List SpawnedFuture)
    (sp : List (Bool × TaskBeh)) (c : Bool) : Tls × List SpawnedFuture :=
  let r := spawnMany tls q sp
  (if c then cancelAllSpawned r.1 else r.1, r.2)

/-- Result of running `TaskRunner::finish`: whether the drain loop reached
its exit condition within the supplied fuel (`completed = false` means the
modelled run was cut off while the real loop would still be iterating or
parking, i.e. the call has not returned), the value handed to
`result.unwrap()` on exit, and the final state. -/
structure RunOut (α ε : Type) : Type where
  completed : Bool
  value : Option (Except ε α)
  state : RunState α ε

/-- Polls one spawned task exactly as the closure handed to
`scheduler.tick` does (src lines 389-398): the scheduler is published for
the duration of the poll (`set_scheduler` inside the tick callback), the
poll's re-entrant spawns and cancellation request are applied, and
`Ok(Ready(_))` and `Err(_)` alike yield `Async::Ready(daemon)` while
`NotReady` leaves the task in the wake-pending set.  Returns the `Tick`
data value (`some daemon` for a completed task, `none` for not-ready)
together with the updated state. -/
def tickPoll (s : RunState α ε) (t : SpawnedFuture) (rest : List SpawnedFuture) :
    Option Bool × RunState α ε :=
  match t.inner with
  | .mk sp c done next =>
    let tls1 := { s.tls with schedPtr := true }
    let r := applyEffects tls1 rest sp c
    let ev := Ev.taskPollEv tls1.schedPtr
    let tls3 := { r.1 with schedPtr := false }
    match done with
    | some _ =>
      (some t.daemon,
       { s with tls := tls3, queue := r.2, trace := s.trace ++ [ev] })
    | none =>
      (none,
       { s with tls := tls3, queue := r.2,
                parked := s.parked ++ [⟨t.daemon, next.getD t.inner⟩],
                trace := s.trace ++ [ev] })

/-- The `poll_all` drain loop (src lines 385-417) over the deterministic
single-thread queue: repeatedly pop the front task and poll it via
`tickPoll`; a completed non-daemon task decrements `non_daemons` (the
`debug_assert!(non_daemons > 0)` is recorded in `assertFailed`); draining
stops when the queue reports empty.  The fuel bounds the number of task
polls; the Bool is false when fuel ran out before the queue emptied. -/
def pollAll : Nat → RunState α ε → Bool × RunState α ε
  | 0, s => (s.queue.isEmpty, s)
  | fuel + 1, s =>
    match s.queue with
    | [] => (true, s)
    | t :: rest =>
      let r := tickPoll s t rest
      match r.1 with
      | some isDaemon =>
        if isDaemon then
          pollAll fuel r.2
        else
          let pre := r.2.tls.nonDaemons
          pollAll fuel
            { r.2 with tls := { r.2.tls with nonDaemons := pre - 1 },
                       assertFailed := r.2.assertFailed || pre == 0 }
      | none => pollAll fuel r.2

/-- One root poll inside `set_scheduler` (src lines 354-373): the pointer
is published, the root future — when still unresolved — is polled (its
re-entrant spawns and cancellation applied; `Ready`/`Err` store the
outcome and clear `future`, `NotReady` keeps it), and the pointer is reset
to null when the scope ends. -/
def rootPollStep (s : RunState α ε) : RunState α ε :=
  let tls1 := { s.tls with schedPtr := true }
  let s2 : RunState α ε :=
    match s.root with
    | none => { s with tls := tls1 }
    | some (.mk sp c res next) =>
      let r := applyEffects tls1 s.queue sp c
      let s' := { s with tls := r.1, queue := r.2,
                         trace := s.trace ++ [Ev.rootPollEv tls1.schedPtr] }
      match res with
      | some out => { s' with root := none, result := some out }
      | none => { s' with root := some (next.getD (.mk sp c res next)) }
  { s2 with tls := { s2.tls with schedPtr := false } }

/-- Whether the `finish` drain loop keeps iterating:
`future.is_some() || current.non_daemons.get() > 0` (src line 345). -/
def loopCond (s : RunState α ε) : Bool :=
  s.root.isSome || decide (s.tls.nonDaemons > 0)

/-- Processing of a requested cancellation at the top of a loop iteration
(src lines 346-352): clear the flag and replace the scheduler with a brand
new empty one, discarding every queued and wake-pending task — without
touching `non_daemons`. -/
def cancelStep (s : RunState α ε) : RunState α ε :=
  if s.tls.cancel then
    { s with tls := { s.tls with cancel := false }, queue := [], parked := [] }
  else s

/-- Parking on the wake token (src lines 377-379) in the most favourable
wake environment, modelled from the spec: while the thread is parked,
every wake-pending task is woken and re-inserted into the ready queue.
The park observation records the scheduler-pointer state at that moment. -/
def parkWake (s : RunState α ε) : RunState α ε :=
  { s with trace := s.trace ++ [Ev.parkEv s.tls.schedPtr],
           queue := s.queue ++ s.parked, parked := [] }

/-- One iteration of the `finish` drain loop body (src lines 345-380):
process a pending cancellation, poll the root inside a published-scheduler
scope, drain the queue, and — when the loop will continue — park the
thread.  The Bool is false when the drain ran out of fuel. -/
def iterStep (pf : Nat) (s : RunState α ε) : Bool × RunState α ε :=
  let r := pollAll pf (rootPollStep (cancelStep s))
  if r.1 then
    if loopCond r.2 then (true, parkWake r.2) else (true, r.2)
  else (false, r.2)

/-- The `finish` drain loop (src lines 345-382), fuelled by the number of
iterations: while the root is unresolved or non-daemon tasks are pending,
run `iterStep`; on exit return the stored result (`result.unwrap()`). -/
def finishLoop : Nat → Nat → RunState α ε → RunOut α ε
  | 0, _, s => if loopCond s then ⟨false, none, s⟩ else ⟨true, s.result, s⟩
  | fuel + 1, pf, s =>
    if loopCond s then
      let r := iterStep pf s
      if r.1 then finishLoop fuel pf r.2 else ⟨false, none, r.2⟩
    else ⟨true, s.result, s⟩

/-- Executes `n` loop iterations (used to relate a finished run to the
iteration at which the loop condition became false). -/
def iterN (pf : Nat) : Nat → RunState α ε → Bool × RunState α ε
  | 0, s => (true, s)
  | n + 1, s =>
    let r := iterStep pf s
    if r.1 then iterN pf n r.2 else (false, r.2)

/-- Outcome of `TaskRunner::enter`: either the entry assertion
`assert!(current.scheduler.get().is_null())` fired — carrying the
thread-local state exactly as it was at that point — or the run finished
with the given `RunOut`. -/
inductive EnterResult (α ε : Type) : Type where
  | panicked (tls : Tls)
  | finished (out : RunOut α ε)

/-- The `TaskRunner::enter` entry point (src lines 310-334): a fresh
runner with an empty queue is created, the no-active-context assertion is
checked, the setup closure `f` runs inside a published-scheduler scope
(its spawns and cancellation applied, its returned root future kept), and
`finish` drives the run. -/
def enter (fuel pf : Nat) (tls : Tls) (initSpawns : List (Bool × TaskBeh))
    (initCancel : Bool) (root : RootBeh α ε) : EnterResult α ε :=
  if tls.schedPtr then .panicked tls
  else
    let tls1 := { tls with schedPtr := true }
    let r := applyEffects tls1 [] initSpawns initCancel
    let tls3 := { r.1 with schedPtr := false }
    let s0 : RunState α ε :=
      { tls := tls3, queue := r.2, parked := [], root := some root,
        result := none, trace := [], assertFailed := false }
    .finished (finishLoop fuel pf s0)

/-- The public `CurrentThread::block_on_all` (src lines 193-195):
`TaskRunner::enter(|| future)` — the setup closure only returns the future
and performs no spawns. -/
def blockOnAll (fuel pf : Nat) (tls : Tls) (root : RootBeh α ε) : EnterResult α ε :=
  enter fuel pf tls [] false root

/-- The public `CurrentThread::block_with_init` (src lines 202-207): the
init closure runs once inside the entry scope (performing its spawns and
cancellation) and the root is the trivial `future::ok(())`. -/
def blockWithInit (fuel pf : Nat) (tls : Tls) (initSpawns : List (Bool × TaskBeh))
    (initCancel : Bool) : EnterResult Unit Unit :=
  enter fuel pf tls initSpawns initCancel (.mk [] false (some (.ok ())) none)

/-- Projects the run outcome out of an `EnterResult`, mapping the panicked
case to a vacuous completed run. -/
def runOutOf : EnterResult α ε → RunOut α ε
  | .panicked t => ⟨true, none, ⟨t, [], [], none, none, [], false⟩⟩
  | .finished out => out

/-- Trace of an `EnterResult`, empty for a panicked entry. -/
def enterTrace : EnterResult α ε → List Ev
  | .panicked _ => []
  | .finished out => out.state.trace

/-- The tri-state result of one `scheduler.tick` attempt.  Modelled from
the spec: the ready-queue primitive (not part of the translated file)
reports a drained-and-completed task's payload, emptiness, or a detected
structural conflict with a concurrent push. -/
inductive Tick (T : Type) : Type where
  | data (v : T)
  | empty
  | inconsistent
deriving DecidableEq

/-- The `poll_all` match on tick results (src lines 400-416), run against
an arbitrary finite stream of tick outcomes produced by the external
queue: `Data(is_daemon)` decrements the non-daemon count for a non-daemon
task and keeps draining, `Empty` stops the drain, `Inconsistent` yields
the thread and retries.  Returns `none` when the stream is exhausted
without an `Empty` (the loop would still be running), else the final
count, the number of yields performed and the number of data results
processed. -/
def pollAllTicks (nd yields processed : Nat) :
    List (Tick Bool) → Option (Nat × Nat × Nat)
  | [] => none
  | .data d :: rest =>
    pollAllTicks (if d then nd else nd - 1) yields (processed + 1) rest
  | .empty :: _ => some (nd, yields, processed)
  | .inconsistent :: rest => pollAllTicks nd (yields + 1) processed rest

/-- Whether a tick result is `Empty`. -/
def isEmptyTick : Tick Bool → Bool
  | .empty => true
  | _ => false

/-- The tick results strictly before the first `Empty` of a stream. -/
def preEmpty (ts : List (Tick Bool)) : List (Tick Bool) :=
  ts.takeWhile (fun t => !isEmptyTick t)

/-- Number of `Data` results in a tick stream. -/
def countData (ts : List (Tick Bool)) : Nat :=
  (ts.filter (fun t => match t with | .data _ => true | _ => false)).length

/-- Number of `Inconsistent` results in a tick stream. -/
def countIncons (ts : List (Tick Bool)) : Nat :=
  (ts.filter (fun t => match t with | .inconsistent => true | _ => false)).length

/-- Whether one trace observation is consistent with the scheduler
pointer's published scopes: polls see a non-null pointer, parks see a null
one. -/
def evOk : Ev → Bool
  | .rootPollEv b => b
  | .taskPollEv b => b
  | .parkEv b => !b

/-- All observations of a trace are consistent with the pointer's
published scopes. -/
def TraceOk (l : List Ev) : Prop := ∀ e ∈ l, evOk e = true

/-- Number of non-daemon tasks in a task list. -/
def ndCount (l : List SpawnedFuture) : Nat :=
  (l.filter (fun t => !t.daemon)).length

/-- Number of non-daemon spawn requests in one poll's effect list. -/
def ndReq (sp : List (Bool × TaskBeh)) : Nat :=
  (sp.filter (fun p => !p.1)).length

/-- The counter invariant tying `non_daemons` to the live tasks: the
counter is at least the number of non-daemon tasks that are queued or
wake-pending.  Cancellation can make the inequality strict (discarded
tasks stay counted), which is exactly why the counter never reaches zero
again after a cancelled non-daemon task. -/
def ndInv (s : RunState α ε) : Prop :=
  ndCount s.queue + ndCount s.parked ≤ s.tls.nonDaemons

/-- A future that never resolves and makes no executor calls. -/
def neverBeh : TaskBeh := .mk [] false none none

/-- Root behaviour of the C1 scenario: on its only poll it spawns
`neverBeh` as a non-daemon task, calls `cancel_all_spawned` and resolves
with `Ok(42)`. -/
def rootC1 : RootBeh Nat Nat := .mk [(false, neverBeh)] true (some (.ok 42)) none

/-- Shape of the C1 run states after cancellation has discarded the
spawned task: the root is resolved, nothing is queued or wake-pending, yet
the non-daemon counter is stuck at one, so the loop condition never
becomes false again. -/
def c1Stuck (s : RunState Nat Nat) : Prop :=
  s.root = none ∧ s.tls.nonDaemons = 1 ∧ s.tls.schedPtr = false ∧
  s.tls.cancel = false ∧ s.queue = [] ∧ s.parked = []

/-- Shape of the C1 run state one iteration after the root resolved: the
cancellation request is still pending and the spawned task sits in the
queue after its wake. -/
def c1Stuck2 (s : RunState Nat Nat) : Prop :=
  s.root = none ∧ s.tls.nonDaemons = 1 ∧ s.tls.schedPtr = false ∧
  s.tls.cancel = true ∧ s.queue = [⟨false, neverBeh⟩] ∧ s.parked = []

/-- Root behaviour of the C3 scenario: not ready on the first poll, `Ok(7)`
on the second, no executor calls. -/
def rootC3 : RootBeh Nat Nat :=
  .mk [] false none (some (.mk [] false (some (.ok 7)) none))

/-- A quiescent run state (root resolved, counter zero) that still holds
an unfinished daemon task in its queue. -/
def sQuiescent : RunState Nat Nat :=
  { tls := ⟨false, 0, false⟩, queue := [⟨true, neverBeh⟩], parked := [],
    root := none, result := some (.ok 5), trace := [], assertFailed := false }

theorem ndCount_nil : ndCount [] = 0 := rfl

theorem ndCount_append (l₁ l₂ : List SpawnedFuture) :
    ndCount (l₁ ++ l₂) = ndCount l₁ + ndCount l₂ := by
  simp [ndCount, List.filter_append]

theorem ndCount_cons (t : SpawnedFuture) (l : List SpawnedFuture) :
    ndCount (t :: l) = (if t.daemon then 0 else 1) + ndCount l := by
  cases h : t.daemon <;> simp [ndCount, h] <;> omega

theorem ndCount_map_mk (sp : List (Bool × TaskBeh)) :
    ndCount (sp.map (fun p => (⟨p.1, p.2⟩ : SpawnedFuture))) = ndReq sp := by
  induction sp with
  | nil => rfl
  | cons p rest ih =>
    cases hp : p.1 <;> simp [ndCount, ndReq, hp] at ih ⊢ <;> omega

theorem ndReq_cons (d : Bool) (t : TaskBeh) (sp : List (Bool × TaskBeh)) :
    ndReq ((d, t) :: sp) = (if d then 0 else 1) + ndReq sp := by
  cases d <;> simp [ndReq] <;> omega

theorem spawn_schedPtr (tls : Tls) (q : List SpawnedFuture) (t : TaskBeh) (d : Bool) :
    (spawn tls q t d).2.1.schedPtr = tls.schedPtr := by
  by_cases h : tls.schedPtr = false <;> cases d <;> simp [spawn, h]

theorem spawnMany_schedPtr (sp : List (Bool × TaskBeh)) (tls : Tls)
    (q : List SpawnedFuture) :
    (spawnMany tls q sp).1.schedPtr = tls.schedPtr := by
  induction sp generalizing tls q with
  | nil => rfl
  | cons p rest ih =>
    obtain ⟨d, t⟩ := p
    simpa [spawnMany, spawn_schedPtr] using
      (ih (spawn tls q t d).2.1 (spawn tls q t d).2.2).trans (spawn_schedPtr ..)

theorem spawnMany_eq (sp : List (Bool × TaskBeh)) (tls : Tls)
    (q : List SpawnedFuture) (h : tls.schedPtr = true) :
    (spawnMany tls q sp).1.nonDaemons = tls.nonDaemons + ndReq sp ∧
    (spawnMany tls q sp).1.cancel = tls.cancel ∧
    (spawnMany tls q sp).2 = q ++ sp.map (fun p => (⟨p.1, p.2⟩ : SpawnedFuture)) := by
  induction sp generalizing tls q with
  | nil => simp [spawnMany, ndReq]
  | cons p rest ih =>
    obtain ⟨d, t⟩ := p
    have hs : (spawn tls q t d).2.1.schedPtr = true := by rw [spawn_schedPtr, h]
    obtain ⟨ih1, ih2, ih3⟩ := ih (spawn tls q t d).2.1 (spawn tls q t d).2.2 hs
    have hp : tls.schedPtr = false ↔ False := by simp [h]
    refine ⟨?_, ?_, ?_⟩
    · rw [spawnMany, ih1, ndReq_cons]
      cases d <;> simp [spawn, hp] <;> omega
    · rw [spawnMany, ih2]
      cases d <;> simp [spawn, hp]
    · rw [spawnMany, ih3]
      cases d <;> simp [spawn, hp]

theorem applyEffects_schedPtr (tls : Tls) (q : List SpawnedFuture)
    (sp : List (Bool × TaskBeh)) (c : Bool) :
    (applyEffects tls q sp c).1.schedPtr = tls.schedPtr := by
  cases c <;> simp [applyEffects, cancelAllSpawned, spawnMany_schedPtr]

theorem applyEffects_eq (tls : Tls) (q : List SpawnedFuture)
    (sp : List (Bool × TaskBeh)) (c : Bool) (h : tls.schedPtr = true) :
    (applyEffects tls q sp c).1.nonDaemons = tls.nonDaemons + ndReq sp ∧
    (applyEffects tls q sp c).2 = q ++ sp.map (fun p => (⟨p.1, p.2⟩ : SpawnedFuture)) := by
  obtain ⟨h1, _, h3⟩ := spawnMany_eq sp tls q h
  cases c <;> simp [applyEffects, cancelAllSpawned, h1, h3]

theorem pollAll_empty (fuel : Nat) (s : RunState α ε) (h : s.queue = []) :
    pollAll fuel s = (true, s) := by
  cases fuel <;> simp [pollAll, h]

theorem pollAll_root (fuel : Nat) (s : RunState α ε) :
    (pollAll fuel s).2.root = s.root := by
  induction fuel generalizing s with
  | zero => rfl
  | succ n ih =>
    rcases hq : s.queue with _ | ⟨⟨d, ⟨sp, c, dn, nx⟩⟩, rest⟩
    · simp [pollAll, hq]
    · rcases dn with _ | b <;> cases d <;>
        simp only [pollAll, hq, tickPoll, Bool.false_eq_true, eq_self_iff_true, if_true, if_false] <;> rw [ih] <;> rfl

theorem pollAll_result (fuel : Nat) (s : RunState α ε) :
    (pollAll fuel s).2.result = s.result := by
  induction fuel generalizing s with
  | zero => rfl
  | succ n ih =>
    rcases hq : s.queue with _ | ⟨⟨d, ⟨sp, c, dn, nx⟩⟩, rest⟩
    · simp [pollAll, hq]
    · rcases dn with _ | b <;> cases d <;>
        simp only [pollAll, hq, tickPoll, Bool.false_eq_true, eq_self_iff_true, if_true, if_false] <;> rw [ih] <;> rfl

theorem pollAll_schedPtr (fuel : Nat) (s : RunState α ε) (h : s.tls.schedPtr = false) :
    (pollAll fuel s).2.tls.schedPtr = false := by
  induction fuel generalizing s with
  | zero => exact h
  | succ n ih =>
    rcases hq : s.queue with _ | ⟨⟨d, ⟨sp, c, dn, nx⟩⟩, rest⟩
    · simpa [pollAll, hq] using h
    · rcases dn with _ | b <;> cases d <;>
        simp only [pollAll, hq, tickPoll, Bool.false_eq_true, eq_self_iff_true, if_true, if_false] <;> exact ih _ rfl

theorem traceOk_append (l₁ l₂ : List Ev) (h₁ : TraceOk l₁) (h₂ : TraceOk l₂) :
    TraceOk (l₁ ++ l₂) := by
  intro e he
  rcases List.mem_append.mp he with h | h
  · exact h₁ e h
  · exact h₂ e h

theorem pollAll_trace (fuel : Nat) (s : RunState α ε) (h : TraceOk s.trace) :
    TraceOk (pollAll fuel s).2.trace := by
  induction fuel generalizing s with
  | zero => exact h
  | succ n ih =>
    rcases hq : s.queue with _ | ⟨⟨d, ⟨sp, c, dn, nx⟩⟩, rest⟩
    · simpa [pollAll, hq] using h
    · have hok : TraceOk (s.trace ++ [Ev.taskPollEv true]) := by
        refine traceOk_append _ _ h ?_
        intro e he
        simp only [List.mem_singleton] at he
        subst he
        rfl
      rcases dn with _ | b <;> cases d <;>
        simp only [pollAll, hq, tickPoll, Bool.false_eq_true, eq_self_iff_true, if_true, if_false] <;> exact ih _ hok

theorem withPtr_nonDaemons (tls : Tls) (b : Bool) :
    ({ tls with schedPtr := b } : Tls).nonDaemons = tls.nonDaemons := rfl

theorem withPtr_cancel (tls : Tls) (b : Bool) :
    ({ tls with schedPtr := b } : Tls).cancel = tls.cancel := rfl

theorem applyEffects_nd (tls : Tls) (q : List SpawnedFuture)
    (sp : List (Bool × TaskBeh)) (c : Bool) (h : tls.schedPtr = true) :
    (applyEffects tls q sp c).1.nonDaemons = tls.nonDaemons + ndReq sp :=
  (applyEffects_eq tls q sp c h).1

theorem applyEffects_queue (tls : Tls) (q : List SpawnedFuture)
    (sp : List (Bool × TaskBeh)) (c : Bool) (h : tls.schedPtr = true) :
    ndCount (applyEffects tls q sp c).2 = ndCount q + ndReq sp := by
  rw [(applyEffects_eq tls q sp c h).2, ndCount_append, ndCount_map_mk]

theorem pollAll_nd (fuel : Nat) (s : RunState α ε) (h : ndInv s) :
    ndInv (pollAll fuel s).2 ∧
    (s.assertFailed = false → (pollAll fuel s).2.assertFailed = false) := by
  induction fuel generalizing s with
  | zero => exact ⟨h, fun ha => ha⟩
  | succ n ih =>
    rcases hq : s.queue with _ | ⟨⟨d, ⟨sp, c, dn, nx⟩⟩, rest⟩
    · simp only [pollAll, hq]
      exact ⟨h, fun ha => ha⟩
    · have hcnt : (if d then 0 else 1) + ndCount rest + ndCount s.parked
          ≤ s.tls.nonDaemons := by
        have := h
        simp only [ndInv, hq, ndCount_cons] at this
        omega
      rcases dn with _ | b
      · -- not ready: the task moves to the wake-pending set
        cases d <;>
        · simp only [pollAll, hq, tickPoll, Bool.false_eq_true, eq_self_iff_true,
            if_true, if_false]
          refine ih _ ?_
          simp only [Bool.false_eq_true, eq_self_iff_true, if_true, if_false] at hcnt
          simp [ndInv, ndCount_append, ndCount_cons, ndCount_nil, applyEffects_nd,
            applyEffects_queue, withPtr_nonDaemons]
          omega
      · -- completed (successfully or with an error)
        cases d
        · -- non-daemon: decrement, assert non_daemons > 0
          have hpos : 0 < (applyEffects { s.tls with schedPtr := true } rest sp c).1.nonDaemons := by
            rw [applyEffects_nd _ _ _ _ (by rfl), withPtr_nonDaemons]
            simp only [Bool.false_eq_true, if_false] at hcnt
            omega
          simp only [pollAll, hq, tickPoll, Bool.false_eq_true, eq_self_iff_true,
            if_true, if_false]
          have hb : ((applyEffects { s.tls with schedPtr := true } rest sp c).1.nonDaemons == 0)
              = false := by
            simp [Nat.pos_iff_ne_zero.mp hpos]
          rw [hb]
          refine (fun hinv => ⟨(ih _ hinv).1, fun ha => (ih _ hinv).2 (by simpa using ha)⟩) ?_
          simp only [Bool.false_eq_true, if_false] at hcnt
          simp [ndInv, ndCount_append, ndCount_cons, ndCount_nil, applyEffects_nd,
            applyEffects_queue, withPtr_nonDaemons]
          omega
        · -- daemon: no decrement
          simp only [pollAll, hq, tickPoll, Bool.false_eq_true, eq_self_iff_true,
            if_true, if_false]
          refine ih _ ?_
          simp only [eq_self_iff_true, if_true] at hcnt
          simp [ndInv, ndCount_append, ndCount_cons, ndCount_nil, applyEffects_nd,
            applyEffects_queue, withPtr_nonDaemons]
          omega

theorem cancelStep_pres (s : RunState α ε) :
    (cancelStep s).tls.schedPtr = s.tls.schedPtr ∧
    (cancelStep s).trace = s.trace ∧
    (cancelStep s).assertFailed = s.assertFailed ∧
    (ndInv s → ndInv (cancelStep s)) ∧
    (cancelStep s).root = s.root := by
  by_cases hc : s.tls.cancel = true <;>
    simp [cancelStep, hc, ndInv, ndCount_nil]

theorem parkWake_pres (s : RunState α ε) :
    (parkWake s).tls = s.tls ∧
    (parkWake s).assertFailed = s.assertFailed ∧
    (parkWake s).root = s.root ∧
    (s.tls.schedPtr = false → TraceOk s.trace → TraceOk (parkWake s).trace) ∧
    (ndInv s → ndInv (parkWake s)) := by
  refine ⟨rfl, rfl, rfl, ?_, ?_⟩
  · intro hp ht
    refine traceOk_append _ _ ht ?_
    intro e he
    simp only [List.mem_singleton] at he
    subst he
    simp [evOk, hp]
  · intro h
    simp only [ndInv, parkWake, ndCount_append, ndCount_nil] at h ⊢
    omega

theorem rootPollStep_pres (s : RunState α ε) :
    (rootPollStep s).tls.schedPtr = false ∧
    (rootPollStep s).parked = s.parked ∧
    (rootPollStep s).assertFailed = s.assertFailed ∧
    (TraceOk s.trace → TraceOk (rootPollStep s).trace) ∧
    (ndInv s → ndInv (rootPollStep s)) := by
  have hok : ∀ l : List Ev, TraceOk l → TraceOk (l ++ [Ev.rootPollEv true]) := by
    intro l hl
    refine traceOk_append _ _ hl ?_
    intro e he
    simp only [List.mem_singleton] at he
    subst he
    rfl
  rcases hr : s.root with _ | ⟨sp, c, res, nx⟩
  · simp [rootPollStep, hr, ndInv]
  · rcases res with _ | out <;>
    · refine ⟨rfl, ?_, ?_, ?_, ?_⟩
      · simp [rootPollStep, hr]
      · simp [rootPollStep, hr]
      · intro h
        simp only [rootPollStep, hr]
        exact hok _ h
      · intro h
        simp only [ndInv] at h
        simp only [rootPollStep, hr, ndInv]
        simp [ndCount_append, applyEffects_nd, applyEffects_queue, withPtr_nonDaemons]
        omega

theorem iterStep_pres (pf : Nat) (s : RunState α ε) :
    (iterStep pf s).2.tls.schedPtr = false ∧
    (TraceOk s.trace → TraceOk (iterStep pf s).2.trace) ∧
    (ndInv s → ndInv (iterStep pf s).2) ∧
    (ndInv s → s.assertFailed = false → (iterStep pf s).2.assertFailed = false) := by
  obtain ⟨hc1, hc2, hc3, hc4, _⟩ := cancelStep_pres s
  obtain ⟨hr1, hr2, hr3, hr4, hr5⟩ := rootPollStep_pres (cancelStep s)
  have hp1 := pollAll_schedPtr pf (rootPollStep (cancelStep s)) hr1
  have hp2 := fun h => pollAll_trace pf (rootPollStep (cancelStep s)) (hr4 (hc2 ▸ h))
  have hp3 : ndInv s → ndInv (pollAll pf (rootPollStep (cancelStep s))).2 :=
    fun h => (pollAll_nd pf _ (hr5 (hc4 h))).1
  have hp4 : ndInv s → s.assertFailed = false →
      (pollAll pf (rootPollStep (cancelStep s))).2.assertFailed = false := by
    intro h ha
    exact (pollAll_nd pf _ (hr5 (hc4 h))).2 (hr3.trans (hc3.trans ha))
  obtain ⟨hw1, hw2, _, hw4, hw5⟩ := parkWake_pres (pollAll pf (rootPollStep (cancelStep s))).2
  unfold iterStep
  by_cases h1 : (pollAll pf (rootPollStep (cancelStep s))).1 = true
  · by_cases h2 : loopCond (pollAll pf (rootPollStep (cancelStep s))).2 = true
    · simp only [h1, h2, if_true]
      exact ⟨hw1 ▸ hp1, fun h => hw4 hp1 (hp2 h), fun h => hw5 (hp3 h),
             fun h ha => hw2.trans (hp4 h ha)⟩
    · simp only [h1, eq_false_of_ne_true h2, if_true, if_false]
      exact ⟨hp1, hp2, hp3, hp4⟩
  · simp only [eq_false_of_ne_true h1, if_false]
    exact ⟨hp1, hp2, hp3, hp4⟩

theorem finishLoop_pres (fuel pf : Nat) (s : RunState α ε) :
    (s.tls.schedPtr = false → (finishLoop fuel pf s).state.tls.schedPtr = false) ∧
    (TraceOk s.trace → TraceOk (finishLoop fuel pf s).state.trace) ∧
    (ndInv s → ndInv (finishLoop fuel pf s).state) ∧
    (ndInv s → s.assertFailed = false → (finishLoop fuel pf s).state.assertFailed = false) := by
  induction fuel generalizing s with
  | zero =>
    by_cases hc : loopCond s = true <;>
      simp [finishLoop, hc] <;>
      exact ⟨fun h => h, fun h => h, fun h => h, fun h ha => ha⟩
  | succ n ih =>
    by_cases hc : loopCond s = true
    · obtain ⟨hi1, hi2, hi3, hi4⟩ := iterStep_pres pf s
      by_cases hr : (iterStep pf s).1 = true
      · simp only [finishLoop, hc, if_true, hr]
        obtain ⟨ih1, ih2, ih3, ih4⟩ := ih (iterStep pf s).2
        exact ⟨fun _ => ih1 hi1, fun h => ih2 (hi2 h), fun h => ih3 (hi3 h),
               fun h ha => ih4 (hi3 h) (hi4 h ha)⟩
      · simp only [finishLoop, hc, if_true, eq_false_of_ne_true hr, if_false]
        exact ⟨fun _ => hi1, hi2, hi3, hi4⟩
    · simp only [finishLoop, hc, eq_false_of_ne_true hc, if_false]
      exact ⟨fun h => h, fun h => h, fun h => h, fun h ha => ha⟩

theorem finishLoop_exit (fuel pf : Nat) (s : RunState α ε)
    (h : (finishLoop fuel pf s).completed = true) :
    loopCond (finishLoop fuel pf s).state = false := by
  induction fuel generalizing s with
  | zero =>
    by_cases hc : loopCond s = true
    · simp [finishLoop, hc] at h
    · simp [finishLoop, eq_false_of_ne_true hc]
  | succ n ih =>
    by_cases hc : loopCond s = true
    · by_cases hr : (iterStep pf s).1 = true
      · simp only [finishLoop, hc, eq_self_iff_true, if_true, hr] at h ⊢
        exact ih _ h
      · simp [finishLoop, hc, eq_false_of_ne_true hr] at h
    · simp [finishLoop, eq_false_of_ne_true hc]

theorem finishLoop_iterN (fuel pf : Nat) (s : RunState α ε)
    (h : (finishLoop fuel pf s).completed = true) :
    ∃ n, n ≤ fuel ∧ (iterN pf n s).1 = true ∧
      loopCond (iterN pf n s).2 = false ∧
      finishLoop fuel pf s = ⟨true, (iterN pf n s).2.result, (iterN pf n s).2⟩ := by
  induction fuel generalizing s with
  | zero =>
    by_cases hc : loopCond s = true
    · simp [finishLoop, hc] at h
    · refine ⟨0, Nat.le_refl 0, rfl, eq_false_of_ne_true hc, ?_⟩
      simp [finishLoop, eq_false_of_ne_true hc, iterN]
  | succ n ih =>
    by_cases hc : loopCond s = true
    · by_cases hr : (iterStep pf s).1 = true
      · simp only [finishLoop, hc, eq_self_iff_true, if_true, hr] at h ⊢
        obtain ⟨m, hm1, hm2, hm3, hm4⟩ := ih _ h
        refine ⟨m + 1, Nat.succ_le_succ hm1, ?_, ?_, ?_⟩ <;>
          simp only [iterN, hr, eq_self_iff_true, if_true]
        · exact hm2
        · exact hm3
        · exact hm4
      · simp [finishLoop, hc, eq_false_of_ne_true hr] at h
    · refine ⟨0, Nat.zero_le _, rfl, eq_false_of_ne_true hc, ?_⟩
      simp [finishLoop, eq_false_of_ne_true hc, iterN]

theorem finishLoop_quiescent (fuel pf : Nat) (s : RunState α ε)
    (h1 : s.root = none) (h2 : s.tls.nonDaemons = 0) :
    finishLoop fuel pf s = ⟨true, s.result, s⟩ := by
  have hc : loopCond s = false := by simp [loopCond, h1, h2]
  cases fuel <;> simp [finishLoop, hc]

theorem pollAllTicks_spec (ts : List (Tick Bool)) :
    ∀ nd y p,
      ((pollAllTicks nd y p ts).isSome ↔ Tick.empty ∈ ts) ∧
      (∀ r, pollAllTicks nd y p ts = some r →
        r.2.1 = y + countIncons (preEmpty ts) ∧
        r.2.2 = p + countData (preEmpty ts)) := by
  induction ts with
  | nil =>
    intro nd y p
    constructor
    · simp [pollAllTicks]
    · intro r h
      simp [pollAllTicks] at h
  | cons t rest ih =>
    intro nd y p
    cases t with
    | data d =>
      constructor
      · rw [pollAllTicks]
        rw [(ih _ y (p + 1)).1]
        simp
      · intro r h
        rw [pollAllTicks] at h
        obtain ⟨h1, h2⟩ := (ih _ y (p + 1)).2 r h
        simp only [preEmpty, List.takeWhile, isEmptyTick] at h1 h2 ⊢
        constructor
        · rw [h1]
          simp [countIncons, preEmpty]
        · rw [h2]
          simp [countData, preEmpty]
          omega
    | empty =>
      constructor
      · simp [pollAllTicks]
      · intro r h
        rw [pollAllTicks] at h
        obtain rfl : (nd, y, p) = r := by simpa using h
        simp [preEmpty, List.takeWhile, isEmptyTick, countIncons, countData]
    | inconsistent =>
      constructor
      · rw [pollAllTicks]
        rw [(ih nd (y + 1) p).1]
        simp
      · intro r h
        rw [pollAllTicks] at h
        obtain ⟨h1, h2⟩ := (ih nd (y + 1) p).2 r h
        constructor
        · rw [h1]
          simp [countIncons, preEmpty, List.takeWhile, isEmptyTick]
          omega
        · rw [h2]
          simp [countData, preEmpty, List.takeWhile, isEmptyTick]

/-- C6: the `poll_all` drain loop never treats an `Inconsistent` tick
result as exhaustion: on every `Inconsistent` it yields the thread once
and retries with unchanged accounting, it stops draining exactly when the
queue reports `Empty`, and every `Data` result before the first `Empty` is
processed. -/
theorem c6_tick_tristate :
    (∀ (nd y p : Nat) (rest : List (Tick Bool)),
      pollAllTicks nd y p (Tick.inconsistent :: rest) = pollAllTicks nd (y + 1) p rest) ∧
    (∀ (nd : Nat) (ts : List (Tick Bool)),
      (pollAllTicks nd 0 0 ts).isSome ↔ Tick.empty ∈ ts) ∧
    (∀ (nd : Nat) (ts : List (Tick Bool)) (r : Nat × Nat × Nat),
      pollAllTicks nd 0 0 ts = some r →
      r.2.1 = countIncons (preEmpty ts) ∧ r.2.2 = countData (preEmpty ts)) := by
  refine ⟨fun nd y p rest => rfl, fun nd ts => (pollAllTicks_spec ts nd 0 0).1, ?_⟩
  intro nd ts r h
  simpa using (pollAllTicks_spec ts nd 0 0).2 r h

/-- Witness for C6 at a concrete tick stream holding a completed daemon
task, an inconsistency, a completed non-daemon task and then emptiness. -/
theorem c6_tick_tristate_w :
    ((4, 1, 2) : Nat × Nat × Nat).2.1 =
      countIncons (preEmpty [Tick.data true, Tick.inconsistent, Tick.data false,
        Tick.empty, Tick.data true]) ∧
    ((4, 1, 2) : Nat × Nat × Nat).2.2 =
      countData (preEmpty [Tick.data true, Tick.inconsistent, Tick.data false,
        Tick.empty, Tick.data true]) :=
  c6_tick_tristate.2.2 5
    [Tick.data true, Tick.inconsistent, Tick.data false, Tick.empty, Tick.data true]
    (4, 1, 2) rfl

/-- C4: the internal `spawn` fails with a `Shutdown` error carrying the
original computation when the scheduler pointer is null, and otherwise
wraps the computation, increments `non_daemons` exactly when the task is
not a daemon, pushes it onto the active queue and succeeds. -/
theorem c4_spawn_contract (tls : Tls) (q : List SpawnedFuture)
    (fut : TaskBeh) (daemon : Bool) :
    (tls.schedPtr = false →
      spawn tls q fut daemon = (.error ⟨.shutdown, fut⟩, tls, q)) ∧
    (tls.schedPtr = true →
      (spawn tls q fut daemon).1 = .ok () ∧
      (spawn tls q fut daemon).2.2 = q ++ [⟨daemon, fut⟩] ∧
      (spawn tls q fut daemon).2.1.nonDaemons
        = tls.nonDaemons + (if daemon then 0 else 1) ∧
      (spawn tls q fut daemon).2.1.cancel = tls.cancel ∧
      (spawn tls q fut daemon).2.1.schedPtr = tls.schedPtr) := by
  constructor
  · intro h
    simp [spawn, h]
  · intro h
    refine ⟨?_, ?_, ?_, ?_, ?_⟩ <;> cases daemon <;> simp [spawn, h]

/-- Witness for C4: a spawn outside any run context is rejected with the
computation handed back, and a non-daemon spawn inside one succeeds. -/
theorem c4_spawn_contract_w :
    spawn ⟨false, 0, false⟩ [] (TaskBeh.mk [] false none none) false
      = (.error ⟨.shutdown, TaskBeh.mk [] false none none⟩, ⟨false, 0, false⟩, []) ∧
    (spawn ⟨false, 0, true⟩ [] (TaskBeh.mk [] false none none) false).1 = .ok () :=
  ⟨(c4_spawn_contract ⟨false, 0, false⟩ [] (TaskBeh.mk [] false none none) false).1 rfl,
   ((c4_spawn_contract ⟨false, 0, true⟩ [] (TaskBeh.mk [] false none none) false).2 rfl).1⟩

/-- C10: whenever the internal `spawn` returns an error, the thread-local
state and the queue are completely unchanged and the error is a `Shutdown`
carrying the caller's original computation. -/
theorem c10_spawn_atomic_on_failure (tls : Tls) (q : List SpawnedFuture)
    (fut : TaskBeh) (daemon : Bool) (e : ExecuteError TaskBeh)
    (h : (spawn tls q fut daemon).1 = .error e) :
    (spawn tls q fut daemon).2.1 = tls ∧ (spawn tls q fut daemon).2.2 = q ∧
    e.future = fut ∧ e.kind = .shutdown := by
  obtain ⟨k, f⟩ := e
  by_cases hp : tls.schedPtr = false
  · have h' : (Except.error ⟨ExecuteErrorKind.shutdown, fut⟩ :
        Except (ExecuteError TaskBeh) Unit) = .error ⟨k, f⟩ := by
      rw [← h]
      simp [spawn, hp]
    have hk : ExecuteErrorKind.shutdown = k ∧ fut = f := by simpa using h'
    refine ⟨?_, ?_, hk.2.symm, hk.1.symm⟩ <;> simp [spawn, hp]
  · cases daemon <;> simp [spawn, hp] at h

/-- Witness for C10 at a null scheduler pointer. -/
theorem c10_spawn_atomic_on_failure_w :
    (spawn ⟨true, 3, false⟩ [] (TaskBeh.mk [] false none none) false).2.1 = ⟨true, 3, false⟩ ∧
    (spawn ⟨true, 3, false⟩ [] (TaskBeh.mk [] false none none) false).2.2 = [] ∧
    (ExecuteError.mk .shutdown (TaskBeh.mk [] false none none)).future
      = TaskBeh.mk [] false none none ∧
    (ExecuteError.mk .shutdown (TaskBeh.mk [] false none none)).kind = .shutdown :=
  c10_spawn_atomic_on_failure ⟨true, 3, false⟩ [] (TaskBeh.mk [] false none none) false
    ⟨.shutdown, TaskBeh.mk [] false none none⟩ rfl

/-- C8: the public free functions panic when no run context is active on
the thread, and inside an active run context `spawn` and `spawn_daemon`
never panic while `cancel_all_spawned` sets only the cancellation flag. -/
theorem c8_free_functions_panic_outside_context (tls : Tls)
    (q : List SpawnedFuture) (fut : TaskBeh) :
    (tls.schedPtr = false →
      spawnFree tls q fut = none ∧ spawnDaemonFree tls q fut = none ∧
      cancelAllSpawnedFree tls = none) ∧
    (tls.schedPtr = true →
      (∃ r, spawnFree tls q fut = some r) ∧
      (∃ r, spawnDaemonFree tls q fut = some r) ∧
      cancelAllSpawnedFree tls = some { tls with cancel := true }) := by
  constructor
  · intro h
    refine ⟨?_, ?_, ?_⟩ <;>
      simp [spawnFree, spawnDaemonFree, cancelAllSpawnedFree, withRunner, spawn, h]
  · intro h
    refine ⟨?_, ?_, ?_⟩ <;>
      simp [spawnFree, spawnDaemonFree, cancelAllSpawnedFree, withRunner,
        cancelAllSpawned, spawn, h]

/-- Witness for C8 on a thread with no active context and on one with an
active context. -/
theorem c8_free_functions_panic_outside_context_w :
    (spawnFree ⟨false, 0, false⟩ [] (TaskBeh.mk [] false none none) = none ∧
     spawnDaemonFree ⟨false, 0, false⟩ [] (TaskBeh.mk [] false none none) = none ∧
     cancelAllSpawnedFree ⟨false, 0, false⟩ = none) ∧
    cancelAllSpawnedFree ⟨false, 2, true⟩ = some ⟨true, 2, true⟩ :=
  ⟨(c8_free_functions_panic_outside_context ⟨false, 0, false⟩ []
      (TaskBeh.mk [] false none none)).1 rfl,
   ((c8_free_functions_panic_outside_context ⟨false, 2, true⟩ []
      (TaskBeh.mk [] false none none)).2 rfl).2.2⟩

/-- C9: entering a run context while one is already active on the thread
fails the entry assertion before any state of the outer context is
modified, for both entry functions (the panicked result carries the
thread-local state exactly as it was). -/
theorem c9_nested_enter_rejected (fuel pf : Nat) (tls : Tls)
    (root : RootBeh Nat Nat) (initSpawns : List (Bool × TaskBeh))
    (initCancel : Bool) (h : tls.schedPtr = true) :
    blockOnAll fuel pf tls root = .panicked tls ∧
    blockWithInit fuel pf tls initSpawns initCancel = .panicked tls := by
  constructor <;> simp [blockOnAll, blockWithInit, enter, h]

/-- Witness for C9: a nested entry from inside an active run context (the
published pointer is non-null) is rejected with the state untouched. -/
theorem c9_nested_enter_rejected_w :
    blockOnAll 5 5 ⟨false, 1, true⟩
        (RootBeh.mk [] false (some (.ok 0)) none : RootBeh Nat Nat)
      = .panicked ⟨false, 1, true⟩ ∧
    blockWithInit 5 5 ⟨false, 1, true⟩ [] false = .panicked ⟨false, 1, true⟩ :=
  c9_nested_enter_rejected 5 5 ⟨false, 1, true⟩
    (RootBeh.mk [] false (some (.ok 0)) none : RootBeh Nat Nat) [] false rfl

/-- C5: a spawned task whose poll fails is handled exactly like one whose
poll succeeds — same removal, same non-daemon accounting, same resulting
state — and the queue drain never changes the stored root result, so no
task error ever surfaces. -/
theorem c5_task_error_swallowed :
    (∀ (α ε : Type) (fuel : Nat) (s : RunState α ε) (d : Bool)
       (sp : List (Bool × TaskBeh)) (c : Bool) (nx : Option TaskBeh)
       (rest : List SpawnedFuture),
       pollAll (fuel + 1)
         { s with queue := ⟨d, TaskBeh.mk sp c (some false) nx⟩ :: rest }
         = pollAll (fuel + 1)
           { s with queue := ⟨d, TaskBeh.mk sp c (some true) nx⟩ :: rest }) ∧
    (∀ (α ε : Type) (fuel : Nat) (s : RunState α ε),
       (pollAll fuel s).2.result = s.result) :=
  ⟨fun α ε fuel s d sp c nx rest => rfl,
   fun α ε fuel s => pollAll_result fuel s⟩

/-- C2: the `finish` drain loop iterates exactly while the root is
unresolved or the non-daemon counter is positive — every completed run
exits at the first iteration whose state has the loop condition false,
returning the stored root result; at that exit the root is resolved, the
counter is zero and no non-daemon task remains queued or wake-pending;
and a run whose root is already resolved with counter zero exits
immediately with the stored result, regardless of the daemon tasks still
held in its queue. -/
theorem c2_drain_loop_exit_condition :
    (∀ (α ε : Type) (fuel pf : Nat) (s : RunState α ε),
      (finishLoop fuel pf s).completed = true →
      ∃ n, n ≤ fuel ∧ (iterN pf n s).1 = true ∧
        loopCond (iterN pf n s).2 = false ∧
        finishLoop fuel pf s = ⟨true, (iterN pf n s).2.result, (iterN pf n s).2⟩) ∧
    (∀ (α ε : Type) (fuel pf : Nat) (s : RunState α ε),
      ndInv s → (finishLoop fuel pf s).completed = true →
      (finishLoop fuel pf s).state.root = none ∧
      (finishLoop fuel pf s).state.tls.nonDaemons = 0 ∧
      ndCount (finishLoop fuel pf s).state.queue = 0 ∧
      ndCount (finishLoop fuel pf s).state.parked = 0) ∧
    (∀ (α ε : Type) (fuel pf : Nat) (s : RunState α ε),
      s.root = none → s.tls.nonDaemons = 0 →
      finishLoop fuel pf s = ⟨true, s.result, s⟩) := by
  refine ⟨fun α ε fuel pf s h => finishLoop_iterN fuel pf s h, ?_,
          fun α ε fuel pf s h1 h2 => finishLoop_quiescent fuel pf s h1 h2⟩
  intro α ε fuel pf s hinv h
  have hexit := finishLoop_exit fuel pf s h
  have hnd := (finishLoop_pres fuel pf s).2.2.1 hinv
  have hroot : (finishLoop fuel pf s).state.root = none := by
    rcases hx : (finishLoop fuel pf s).state.root with _ | v
    · rfl
    · rw [loopCond, hx] at hexit
      simp at hexit
  have hnd0 : (finishLoop fuel pf s).state.tls.nonDaemons = 0 := by
    rw [loopCond] at hexit
    simp only [Bool.or_eq_false_iff, decide_eq_false_iff_not, Nat.not_lt,
      Nat.le_zero] at hexit
    exact hexit.2
  simp only [ndInv, hnd0] at hnd
  exact ⟨hroot, hnd0, by omega, by omega⟩

/-- Witness for C2: a quiescent run state holding an unfinished daemon
task exits at once with the stored result. -/
theorem c2_drain_loop_exit_condition_w :
    (∃ n, n ≤ 1 ∧ (iterN 1 n sQuiescent).1 = true ∧
       loopCond (iterN 1 n sQuiescent).2 = false ∧
       finishLoop 1 1 sQuiescent
         = ⟨true, (iterN 1 n sQuiescent).2.result, (iterN 1 n sQuiescent).2⟩) ∧
    finishLoop 1 1 sQuiescent = ⟨true, sQuiescent.result, sQuiescent⟩ :=
  ⟨c2_drain_loop_exit_condition.1 Nat Nat 1 1 sQuiescent rfl,
   c2_drain_loop_exit_condition.2.2 Nat Nat 1 1 sQuiescent rfl rfl⟩

/-- C3 (amended): within a run context the scheduler pointer is non-null
exactly during the published poll scopes — every root poll and every task
poll observes a non-null pointer — while it is null at every park between
drain passes and null again when the run context has exited. -/
theorem c3_scheduler_ptr_scoped (fuel pf : Nat) (tls : Tls)
    (initS : List (Bool × TaskBeh)) (initC : Bool) (root : RootBeh α ε)
    (out : RunOut α ε)
    (h : enter fuel pf tls initS initC root = .finished out) :
    TraceOk out.state.trace ∧ out.state.tls.schedPtr = false := by
  by_cases hp : tls.schedPtr = true
  · rw [enter, if_pos hp] at h
    exact absurd h (by simp)
  · rw [enter, if_neg hp] at h
    injection h with h'
    subst h'
    refine ⟨(finishLoop_pres fuel pf _).2.1 ?_, (finishLoop_pres fuel pf _).1 rfl⟩
    intro e he
    simp at he

/-- Witness for C3 at the two-poll root scenario. -/
theorem c3_scheduler_ptr_scoped_w :
    TraceOk (runOutOf (blockOnAll 5 5 ⟨false, 0, false⟩ rootC3)).state.trace ∧
    (runOutOf (blockOnAll 5 5 ⟨false, 0, false⟩ rootC3)).state.tls.schedPtr = false :=
  c3_scheduler_ptr_scoped 5 5 ⟨false, 0, false⟩ [] false rootC3
    (runOutOf (blockOnAll 5 5 ⟨false, 0, false⟩ rootC3)) rfl

/-- C3 counterexample: in a completed `block_on_all` run whose root needs
two polls, the thread parks between the two drain passes and the trace
records that the scheduler pointer was null at that park — inside the
dynamic extent of the run context — refuting the claim that the pointer
stays non-null for the whole extent including while parked. -/
theorem c3_null_while_parked_cex :
    Ev.parkEv false ∈ enterTrace (blockOnAll 5 5 ⟨false, 0, false⟩ rootC3) ∧
    (runOutOf (blockOnAll 5 5 ⟨false, 0, false⟩ rootC3)).completed = true := by
  exact ⟨by decide, rfl⟩

/-- C7: in every run entered through the public interface (the
thread-local counter is zero outside a run), the assertion
`non_daemons > 0` guarding the counter decrement holds at every decrement
— the recorded assertion-failure flag stays false — and one drain step on
a completed task decrements the counter exactly when the task is
non-daemon. -/
theorem c7_non_daemon_counter_no_underflow :
    (∀ (α ε : Type) (fuel pf : Nat) (tls : Tls) (initS : List (Bool × TaskBeh))
       (initC : Bool) (root : RootBeh α ε) (out : RunOut α ε),
       tls.nonDaemons = 0 →
       enter fuel pf tls initS initC root = .finished out →
       out.state.assertFailed = false) ∧
    (∀ (α ε : Type) (s : RunState α ε) (d : Bool),
       (pollAll 1 { s with queue := [⟨d, TaskBeh.mk [] false (some true) none⟩]
          }).2.tls.nonDaemons
         = if d then s.tls.nonDaemons else s.tls.nonDaemons - 1) := by
  constructor
  · intro α ε fuel pf tls initS initC root out h0 h
    by_cases hp : tls.schedPtr = true
    · rw [enter, if_pos hp] at h
      exact absurd h (by simp)
    · rw [enter, if_neg hp] at h
      injection h with h'
      subst h'
      refine (finishLoop_pres fuel pf _).2.2.2 ?_ rfl
      simp [ndInv, ndCount_nil, applyEffects_queue, applyEffects_nd,
        withPtr_nonDaemons, h0]
  · intro α ε s d
    cases d <;>
      simp [pollAll, tickPoll, applyEffects, spawnMany, withPtr_nonDaemons]

/-- Witness for C7: a run that spawns and completes one non-daemon task
(the counter is decremented once) never fails the assertion. -/
theorem c7_non_daemon_counter_no_underflow_w :
    (runOutOf (blockWithInit 10 10 ⟨false, 0, false⟩
        [(false, TaskBeh.mk [] false (some true) none)] false)).state.assertFailed
      = false :=
  c7_non_daemon_counter_no_underflow.1 Unit Unit 10 10 ⟨false, 0, false⟩
    [(false, TaskBeh.mk [] false (some true) none)] false
    (RootBeh.mk [] false (some (.ok ())) none)
    (runOutOf (blockWithInit 10 10 ⟨false, 0, false⟩
      [(false, TaskBeh.mk [] false (some true) none)] false)) rfl rfl

theorem c1Stuck_iterStep (pf : Nat) (s : RunState Nat Nat) (h : c1Stuck s) :
    (iterStep pf s).1 = true ∧ c1Stuck (iterStep pf s).2 := by
  obtain ⟨tls, q, pk, rt, res, tr, af⟩ := s
  obtain ⟨tc, tn, tp⟩ := tls
  obtain ⟨h1, h2, h3, h4, h5, h6⟩ := h
  dsimp only at h1 h2 h3 h4 h5 h6
  subst h1 h2 h3 h4 h5 h6
  have hp := pollAll_empty pf
    (⟨⟨false, 1, false⟩, [], [], none, res, tr, af⟩ : RunState Nat Nat) rfl
  simp [iterStep, cancelStep, rootPollStep, hp, loopCond, parkWake, c1Stuck]

theorem c1Stuck2_iterStep (pf : Nat) (s : RunState Nat Nat) (h : c1Stuck2 s) :
    (iterStep pf s).1 = true ∧ c1Stuck (iterStep pf s).2 := by
  obtain ⟨tls, q, pk, rt, res, tr, af⟩ := s
  obtain ⟨tc, tn, tp⟩ := tls
  obtain ⟨h1, h2, h3, h4, h5, h6⟩ := h
  dsimp only at h1 h2 h3 h4 h5 h6
  subst h1 h2 h3 h4 h5 h6
  have hp := pollAll_empty pf
    (⟨⟨false, 1, false⟩, [], [], none, res, tr, af⟩ : RunState Nat Nat) rfl
  simp [iterStep, cancelStep, rootPollStep, hp, loopCond, parkWake, c1Stuck]

theorem c1Stuck_finishLoop (fuel pf : Nat) (s : RunState Nat Nat) (h : c1Stuck s) :
    (finishLoop fuel pf s).completed = false := by
  induction fuel generalizing s with
  | zero =>
    have hc : loopCond s = true := by
      simp [loopCond, h.1, h.2.1]
    simp [finishLoop, hc]
  | succ n ih =>
    have hc : loopCond s = true := by
      simp [loopCond, h.1, h.2.1]
    obtain ⟨hi, hst⟩ := c1Stuck_iterStep pf s h
    simp only [finishLoop, hc, eq_self_iff_true, if_true, hi]
    exact ih _ hst

theorem c1Stuck2_finishLoop (fuel pf : Nat) (s : RunState Nat Nat) (h : c1Stuck2 s) :
    (finishLoop fuel pf s).completed = false := by
  cases fuel with
  | zero =>
    have hc : loopCond s = true := by
      simp [loopCond, h.1, h.2.1]
    simp [finishLoop, hc]
  | succ n =>
    have hc : loopCond s = true := by
      simp [loopCond, h.1, h.2.1]
    obtain ⟨hi, hst⟩ := c1Stuck2_iterStep pf s h
    simp only [finishLoop, hc, eq_self_iff_true, if_true, hi]
    exact c1Stuck_finishLoop n pf _ hst

/-- C1 (code bug): a `block_on_all` whose root spawns one never-resolving
non-daemon task, requests `cancel_all_spawned` and resolves with `Ok(42)`
does discard the spawned task (queue and wake-pending set end empty) and
does store the root's result, but the run never completes for any amount
of fuel: the queue replacement leaves `non_daemons` at one, so the loop
condition `future.is_some() || non_daemons > 0` never becomes false and
the thread parks forever instead of returning `Ok(42)`. -/
theorem c1_cancel_discard_diverges :
    (∀ fuel pf : Nat,
      (runOutOf (blockOnAll fuel pf ⟨false, 0, false⟩ rootC1)).completed = false) ∧
    (runOutOf (blockOnAll 7 3 ⟨false, 0, false⟩ rootC1)).state.root = none ∧
    (runOutOf (blockOnAll 7 3 ⟨false, 0, false⟩ rootC1)).state.result
      = some (.ok 42) ∧
    (runOutOf (blockOnAll 7 3 ⟨false, 0, false⟩ rootC1)).state.queue = [] ∧
    (runOutOf (blockOnAll 7 3 ⟨false, 0, false⟩ rootC1)).state.parked = [] ∧
    (runOutOf (blockOnAll 7 3 ⟨false, 0, false⟩ rootC1)).state.tls.nonDaemons = 1 := by
  refine ⟨?_, rfl, rfl, rfl, rfl, rfl⟩
  intro fuel pf
  show (finishLoop fuel pf
      (⟨⟨false, 0, false⟩, [], [], some rootC1, none, [], false⟩ :
        RunState Nat Nat)).completed = false
  cases fuel with
  | zero => rfl
  | succ n =>
    cases pf with
    | zero => rfl
    | succ m =>
      have hpoll : pollAll (m + 1)
          (⟨⟨true, 1, false⟩, [⟨false, neverBeh⟩], [], none, some (.ok 42),
            [Ev.rootPollEv true], false⟩ : RunState Nat Nat)
          = (true, ⟨⟨true, 1, false⟩, [], [⟨false, neverBeh⟩], none, some (.ok 42),
              [Ev.rootPollEv true, Ev.taskPollEv true], false⟩) := by
        have h0 : pollAll (m + 1)
            (⟨⟨true, 1, false⟩, [⟨false, neverBeh⟩], [], none, some (.ok 42),
              [Ev.rootPollEv true], false⟩ : RunState Nat Nat)
            = pollAll m (⟨⟨true, 1, false⟩, [], [⟨false, neverBeh⟩], none,
                some (.ok 42), [Ev.rootPollEv true, Ev.taskPollEv true], false⟩ :
                RunState Nat Nat) := rfl
        rw [h0, pollAll_empty m _ rfl]
      have hiter : iterStep (m + 1)
          (⟨⟨false, 0, false⟩, [], [], some rootC1, none, [], false⟩ :
            RunState Nat Nat)
          = (true, ⟨⟨true, 1, false⟩, [⟨false, neverBeh⟩], [], none,
              some (.ok 42),
              [Ev.rootPollEv true, Ev.taskPollEv true, Ev.parkEv false], false⟩) := by
        simp only [iterStep]
        rw [show rootPollStep (cancelStep
            (⟨⟨false, 0, false⟩, [], [], some rootC1, none, [], false⟩ :
              RunState Nat Nat))
            = (⟨⟨true, 1, false⟩, [⟨false, neverBeh⟩], [], none, some (.ok 42),
                [Ev.rootPollEv true], false⟩ : RunState Nat Nat) from rfl]
        rw [hpoll]
        simp [loopCond, parkWake]
      have step1 : finishLoop (n + 1) (m + 1)
          (⟨⟨false, 0, false⟩, [], [], some rootC1, none, [], false⟩ :
            RunState Nat Nat)
          = finishLoop n (m + 1)
            (⟨⟨true, 1, false⟩, [⟨false, neverBeh⟩], [], none, some (.ok 42),
              [Ev.rootPollEv true, Ev.taskPollEv true, Ev.parkEv false], false⟩ :
              RunState Nat Nat) := by
        simp [finishLoop, hiter, loopCond]
      rw [step1]
      refine c1Stuck2_finishLoop n (m + 1) _ ?_
      exact ⟨rfl, rfl, rfl, rfl, rfl, rfl⟩

end FuturesExec
